import Mathlib

/-!
Shallow embedding of the neural_machine_translation repository
(`src/network.py`, `src/train.py`, `src/dataset.py`).

Token ids are natural numbers, numeric values are rationals.  The torch
layers (`nn.Embedding`, `nn.Linear`, `nn.GRU`) are embedded at the level of
their documented contracts: an embedding is a lookup table whose padding row
is zeroed at initialisation and excluded from gradients, a linear layer is a
matrix-vector product plus bias, and a GRU is a depth-indexed stack of
recurrent transitions whose learned gate arithmetic is folded into an opaque
per-layer cell function.  The epoch drivers of `src/train.py` are embedded
with explicit state passing (parameters, gradients, training flag) and a
per-batch log recording what was passed where, which makes the temporal
claims statable.
-/

set_option autoImplicit false

abbrev Tok := Nat
abbrev TokSeq := List Tok
abbrev Batch := List TokSeq
abbrev Vec := List ℚ

def zeroVec (d : Nat) : Vec := List.replicate d 0

def vecAdd (a b : Vec) : Vec := List.zipWith (fun x y => x + y) a b

def dot (a b : Vec) : ℚ := (List.zipWith (fun x y => x * y) a b).sum

/-- Embedding layer, modelling `torch.nn.Embedding`: a table of
`num_embeddings` rows of width `embedding_dim`; when `padding_idx` is set,
that row is zeroed at construction and its gradient is always zero. -/
structure Embedding where
  num_embeddings : Nat
  embedding_dim : Nat
  padding_idx : Option Nat
  weight : List Vec

/-- `nn.Embedding(num_embeddings, embedding_dim, padding_idx)`: torch draws
an initial weight (here the parameter `w`), then zeroes the `padding_idx`
row. -/
def Embedding.init (n d : Nat) (padIdx : Option Nat) (w : List Vec) : Embedding :=
  { num_embeddings := n
    embedding_dim := d
    padding_idx := padIdx
    weight := match padIdx with
      | some p => w.set p (zeroVec d)
      | none => w }

/-- Forward lookup of one token id. -/
def Embedding.lookup (e : Embedding) (id : Tok) : Vec :=
  e.weight.getD id (zeroVec e.embedding_dim)

/-- Forward over a whole sequence of ids. -/
def Embedding.lookupSeq (e : Embedding) (x : TokSeq) : List Vec :=
  x.map e.lookup

/-- Gradient of the embedding weight row `r`, given the input ids `x` and
the upstream gradient `g` (one vector per position): the sum of the upstream
gradients at positions holding id `r` — except that the `padding_idx` row
never receives gradient (torch semantics of `padding_idx`). -/
def Embedding.gradRow (e : Embedding) (x : TokSeq) (g : List Vec) (r : Nat) : Vec :=
  if e.padding_idx = some r then zeroVec e.embedding_dim
  else (x.zip g).foldl
    (fun acc p => if p.1 = r then vecAdd acc p.2 else acc)
    (zeroVec e.embedding_dim)

/-- Linear layer, modelling `torch.nn.Linear`. -/
structure Linear where
  in_features : Nat
  out_features : Nat
  weight : List Vec
  bias : Vec

def Linear.apply (l : Linear) (v : Vec) : Vec :=
  List.zipWith (fun row b => dot row v + b) l.weight l.bias

/-- Multi-layer unidirectional GRU, modelling `torch.nn.GRU` with
`bidirectional=False`, `batch_first=True`.  The learned gate weights of each
layer are folded into `cell`: `cell l x h` is the hidden state after feeding
input `x` to layer `l` in hidden state `h`. -/
structure GRU where
  input_size : Nat
  hidden_size : Nat
  num_layers : Nat
  dropout : ℚ
  cell : Nat → Vec → Vec → Vec

/-- One recurrent layer over a list of timestep inputs: returns the per-step
outputs and the final hidden state. -/
def runLayer (cell1 : Vec → Vec → Vec) (h0 : Vec) : List Vec → List Vec × Vec
  | [] => ([], h0)
  | x :: rest =>
    let h1 := cell1 x h0
    let r := runLayer cell1 h1 rest
    (h1 :: r.1, r.2)

/-- Run the full layer stack on one sequence of input vectors, given one
initial hidden state per layer; returns the top-layer per-step outputs and
the final hidden state of every layer. -/
def GRU.forwardOne (g : GRU) (h0s : List Vec) (xs : List Vec) : List Vec × List Vec :=
  ((List.range g.num_layers).zip h0s).foldl
    (fun acc lh =>
      let r := runLayer (g.cell lh.1) lh.2 acc.1
      (r.1, acc.2 ++ [r.2]))
    (xs, [])

/-- The batched call `gru(x, h0)` with `batch_first=True`: `x` is
batch × time × input, `h0` is layers × batch × hidden.  torch raises a
`RuntimeError` when the first dimension of `h0` differs from `num_layers`;
the hidden state is never reshaped to fit. -/
def GRU.call (g : GRU) (x : List (List Vec)) (h0 : List (List Vec)) :
    Except String (List (List Vec) × List (List Vec)) :=
  if h0.length = g.num_layers then
    let perRow := (List.range x.length).map fun b =>
      g.forwardOne (h0.map fun layer => layer.getD b (zeroVec g.hidden_size)) (x.getD b [])
    Except.ok
      (perRow.map Prod.fst,
       (List.range g.num_layers).map fun l =>
         perRow.map fun r => r.2.getD l (zeroVec g.hidden_size))
  else Except.error "Expected number of hidden state layers to match num_layers"

/-- Modelled from the spec: `infer_length` lives in `utils.py`, which is not
among the sources; §4.1 of the spec: "For each sequence, compute its true
length as the index of the first pad id, or the full length if no pad id is
present." (`List.findIdx` returns the length when no element satisfies the
predicate.) -/
def infer_length (x : TokSeq) (pad_id : Tok) : Nat :=
  x.findIdx (fun t => t == pad_id)

/-! ## `src/network.py` -/

/-- `Seq2SeqRNNEncoder` (src/network.py lines 9-49). -/
structure Seq2SeqRNNEncoder where
  encoder_embedding : Embedding
  encoder : GRU

/-- `Seq2SeqRNNEncoder.__init__`: `nn.Embedding(..., padding_idx=3)` (the
pad id is hardcoded at line 26) and `nn.GRU(...)`.  The torch-drawn initial
embedding weight and the learned recurrent cell enter as parameters `w` and
`cell`. -/
def Seq2SeqRNNEncoder.init
    (encoder_num_embeddings encoder_embedding_dim encoder_hidden_size
     encoder_num_layers : Nat) (encoder_dropout : ℚ)
    (w : List Vec) (cell : Nat → Vec → Vec → Vec) : Seq2SeqRNNEncoder :=
  { encoder_embedding :=
      Embedding.init encoder_num_embeddings encoder_embedding_dim (some 3) w
    encoder :=
      { input_size := encoder_embedding_dim
        hidden_size := encoder_hidden_size
        num_layers := encoder_num_layers
        dropout := encoder_dropout
        cell := cell } }

/-- The per-row true lengths the encoder computes at line 41:
`lengths = infer_length(x, pad_id=3)`. -/
def encoderLengths (x : Batch) : List Nat :=
  x.map (fun r => infer_length r 3)

/-- The per-row recurrent run of the encoder: the packed sequence
(`pack_padded_sequence(..., lengths, ...)` at lines 42-47) restricts the
recurrence of each row to its first `infer_length r 3` embedded tokens; the
initial hidden state defaults to zeros.  Returns the final hidden state per
layer of this row. -/
def encoderRowHidden (e : Seq2SeqRNNEncoder) (r : TokSeq) : List Vec :=
  (e.encoder.forwardOne
    (List.replicate e.encoder.num_layers (zeroVec e.encoder.hidden_size))
    ((e.encoder_embedding.lookupSeq r).take (infer_length r 3))).2

/-- `Seq2SeqRNNEncoder.forward` (lines 37-49): embed, infer lengths, run the
GRU over the non-pad portion of each row, and return the context vector
(layers × batch × hidden). -/
def Seq2SeqRNNEncoder.forward (e : Seq2SeqRNNEncoder) (x : Batch) : List (List Vec) :=
  let perRow := x.map (encoderRowHidden e)
  (List.range e.encoder.num_layers).map fun l =>
    perRow.map fun hs => hs.getD l (zeroVec e.encoder.hidden_size)

/-- `Seq2SeqRNNDecoder` (src/network.py lines 52-88). -/
structure Seq2SeqRNNDecoder where
  decoder_embedding : Embedding
  decoder : GRU
  linear : Linear

/-- `Seq2SeqRNNDecoder.__init__`: `nn.Embedding(..., padding_idx=3)` (pad id
hardcoded at line 69), `nn.GRU(...)` and `nn.Linear(decoder_hidden_size,
decoder_num_embeddings)`. -/
def Seq2SeqRNNDecoder.init
    (decoder_num_embeddings decoder_embedding_dim decoder_hidden_size
     decoder_num_layers : Nat) (decoder_dropout : ℚ)
    (w : List Vec) (cell : Nat → Vec → Vec → Vec)
    (lw : List Vec) (lb : Vec) : Seq2SeqRNNDecoder :=
  { decoder_embedding :=
      Embedding.init decoder_num_embeddings decoder_embedding_dim (some 3) w
    decoder :=
      { input_size := decoder_embedding_dim
        hidden_size := decoder_hidden_size
        num_layers := decoder_num_layers
        dropout := decoder_dropout
        cell := cell }
    linear := { in_features := decoder_hidden_size
                out_features := decoder_num_embeddings
                weight := lw
                bias := lb } }

/-- `Seq2SeqRNNDecoder.forward` (lines 84-88): embed the teacher-forcing
input, run the GRU seeded with the supplied context vector as initial hidden
state, and project every timestep to vocabulary logits.  The GRU call fails
when the context vector's layer count differs from the decoder's. -/
def Seq2SeqRNNDecoder.forward (d : Seq2SeqRNNDecoder) (x : Batch)
    (context_vector : List (List Vec)) : Except String (List (List Vec)) :=
  let dec_emb := x.map d.decoder_embedding.lookupSeq
  (d.decoder.call dec_emb context_vector).map
    (fun r => r.1.map (fun row => row.map d.linear.apply))

/-- `Seq2SeqRNN` (src/network.py lines 91-128). -/
structure Seq2SeqRNN where
  encoder : Seq2SeqRNNEncoder
  decoder : Seq2SeqRNNDecoder

/-- `Seq2SeqRNN.__init__` (lines 96-123): builds the encoder from the
encoder arguments and the decoder from the decoder arguments. -/
def Seq2SeqRNN.init
    (encoder_num_embeddings encoder_embedding_dim encoder_hidden_size
     encoder_num_layers : Nat) (encoder_dropout : ℚ)
    (decoder_num_embeddings decoder_embedding_dim decoder_hidden_size
     decoder_num_layers : Nat) (decoder_dropout : ℚ)
    (ew : List Vec) (ecell : Nat → Vec → Vec → Vec)
    (dw : List Vec) (dcell : Nat → Vec → Vec → Vec)
    (lw : List Vec) (lb : Vec) : Seq2SeqRNN :=
  { encoder := Seq2SeqRNNEncoder.init encoder_num_embeddings
      encoder_embedding_dim encoder_hidden_size encoder_num_layers
      encoder_dropout ew ecell
    decoder := Seq2SeqRNNDecoder.init decoder_num_embeddings
      decoder_embedding_dim decoder_hidden_size decoder_num_layers
      decoder_dropout dw dcell lw lb }

/-- `Seq2SeqRNN.forward` (lines 125-128): context from the encoder, logits
from the decoder. -/
def Seq2SeqRNN.forward (m : Seq2SeqRNN) (from_seq to_seq : Batch) :
    Except String (List (List Vec)) :=
  let context_vector := m.encoder.forward from_seq
  m.decoder.forward to_seq context_vector

/-- Calling the module: the Python forward assigns no attribute, so a call
returns the logits and leaves the module exactly as it was. -/
def Seq2SeqRNN.call (m : Seq2SeqRNN) (from_seq to_seq : Batch) :
    Except String (List (List Vec)) × Seq2SeqRNN :=
  (m.forward from_seq to_seq, m)

/-! ## `src/dataset.py` -/

/-- `WMTDataset` (src/dataset.py lines 28-78), abstracted over the two
tokenized corpora that `load_data` produces through the external tokenizer
collaborator. -/
structure WMTDataset where
  from_lang_list : List TokSeq
  to_lang_list : List TokSeq
  deriving DecidableEq

/-- `WMTDataset.__init__` (lines 33-70): stores the two loaded lists.  The
constructor performs no count comparison — it is total. -/
def WMTDataset.init (from_lang_data to_lang_data : List TokSeq) : WMTDataset :=
  { from_lang_list := from_lang_data, to_lang_list := to_lang_data }

/-- `WMTDataset.__len__` (lines 72-75): `assert len(from) == len(to)` then
return the count; the assertion failure is modelled as an error. -/
def WMTDataset.len (d : WMTDataset) : Except String Nat :=
  if d.from_lang_list.length = d.to_lang_list.length then
    Except.ok d.from_lang_list.length
  else Except.error "AssertionError"

/-- `WMTDataset.__getitem__` (lines 77-78): indexing either list out of
range raises, modelled as `none`. -/
def WMTDataset.getitem (d : WMTDataset) (idx : Nat) : Option (TokSeq × TokSeq) :=
  match d.from_lang_list.get? idx, d.to_lang_list.get? idx with
  | some a, some b => some (a, b)
  | _, _ => none

/-! ## `src/train.py`

The epoch drivers are generic in the model (`nn.Module`), the criterion and
the optimizer, all injected by the caller.  The model is embedded as a flat
parameter vector plus a forward function `F` of the parameters; autograd is
embedded as a function `gradF` from the parameters and the batch to the
gradient vector that `loss.backward()` accumulates into `.grad`; the
optimizer as a function `stepF` from parameters and gradients to updated
parameters.  `to_numpy` (from `utils.py`, tensor-to-array glue) is the
identity on the list representation. -/

/-- `to_seq[:, :-1]` (train.py lines 38 and 93): the teacher-forcing input,
each row with its last position dropped. -/
def teacherInput (to_seq : Batch) : Batch :=
  to_seq.map (fun r => r.dropLast)

/-- `to_seq[:, 1:]` (train.py lines 39 and 94): the loss target, each row
with its first position dropped. -/
def shiftedTargets (to_seq : Batch) : Batch :=
  to_seq.map (fun r => r.tail)

/-- `torch.argmax` over the last dimension: index of the first maximal
entry. -/
def argmaxAux : Nat → Nat → ℚ → Vec → Nat
  | _, bi, _, [] => bi
  | i, bi, bv, x :: rest =>
    if bv < x then argmaxAux (i + 1) i x rest else argmaxAux (i + 1) bi bv rest

def argmaxIdx : Vec → Nat
  | [] => 0
  | x :: rest => argmaxAux 1 0 x rest

/-- `to_numpy(targets)[0].tolist()` (lines 52 and 103): the first row of the
target batch. -/
def extract_y_true (targets : Batch) : TokSeq :=
  targets.getD 0 []

/-- `to_numpy(outputs.argmax(dim=-1))[0].tolist()` (lines 53 and 104): the
per-position argmax of the first row of the logits batch. -/
def extract_y_pred (outputs : List (List Vec)) : TokSeq :=
  (outputs.getD 0 []).map argmaxIdx

/-- The metrics accumulator `DefaultDict[str, List[float]]`, as an ordered
association list (Python dicts preserve insertion order). -/
abbrev Metrics := List (String × List ℚ)

def metricsGet (m : Metrics) (k : String) : List ℚ :=
  ((m.find? (fun p => p.1 == k)).map Prod.snd).getD []

/-- `metrics[k].append(v)` on a defaultdict(list): appends to the existing
entry, or creates the key with a one-element list. -/
def metricsAppend (m : Metrics) (k : String) (v : ℚ) : Metrics :=
  if m.any (fun p => p.1 == k) then
    m.map (fun p => if p.1 == k then (p.1, p.2 ++ [v]) else p)
  else m ++ [(k, [v])]

/-- Modelled from the spec: `calculate_metrics` lives in `metrics.py`, which
is not among the sources.  Spec §6: `update(accumulator, loss_value,
true_labels, predicted_labels) -> accumulator'`; §3: "one entry appended per
processed batch per metric".  The tracked metrics are a list of named
formulas over the loss value and the label sequences, each appending one
scalar per call. -/
structure MetricFn where
  name : String
  compute : ℚ → TokSeq → TokSeq → ℚ

def calculate_metrics (fns : List MetricFn) (metrics : Metrics) (loss : ℚ)
    (y_true y_pred : TokSeq) : Metrics :=
  fns.foldl (fun m f => metricsAppend m f.name (f.compute loss y_true y_pred)) metrics

/-- `np.mean` of a list. -/
def npMean (l : List ℚ) : ℚ := l.sum / l.length

/-- The Python slice `l[-k:]`: the last `min k (length l)` elements for
`k ≥ 1`, the whole list for `k = 0`. -/
def negSlice (l : List ℚ) (k : Nat) : List ℚ :=
  if k = 0 then l else l.drop (l.length - k)

/-- The last `k` elements of a list. -/
def lastK (k : Nat) (l : List ℚ) : List ℚ := l.drop (l.length - k)

/-- The three gradient-related calls of the training loop body, in program
order. -/
inductive GradAction where
  | backward
  | step
  | zeroGrad
  deriving DecidableEq, Repr

/-- The mutable state of the injected `nn.Module` + optimizer pair: the
flat parameter vector, the accumulated `.grad` vector, and the train/eval
flag toggled by `model.train()` / `model.eval()`. -/
structure ModuleState where
  params : List ℚ
  grads : List ℚ
  training : Bool
  deriving DecidableEq, Repr

/-- Dropout layers are active exactly when the module is in training
mode. -/
def dropoutActive (s : ModuleState) : Bool := s.training

/-- One iteration of `train_epoch`'s loop (train.py lines 35-67).  Besides
the updated module state and accumulator, it returns a log of what the
iteration passed where. -/
structure TrainStepLog where
  from_seq : Batch
  model_input : Batch
  loss_target : Batch
  outputs : List (List Vec)
  loss : ℚ
  grad_before_backward : List ℚ
  grad_computed : List ℚ
  grad_for_step : List ℚ
  grad_after_iter : List ℚ
  actions : List GradAction
  y_true : TokSeq
  y_pred : TokSeq
  metrics_after : Metrics
  printed : Option (List (String × ℚ))
  deriving DecidableEq, Repr

def train_body
    (F : List ℚ → Batch → Batch → List (List Vec))
    (gradF : List ℚ → Batch × Batch → List ℚ)
    (stepF : List ℚ → List ℚ → List ℚ)
    (criterion : List (List Vec) → Batch → ℚ)
    (fns : List MetricFn)
    (train_eval_freq : Nat) (verbose : Bool)
    (st : ModuleState) (metrics : Metrics) (i : Nat) (b : Batch × Batch) :
    ModuleState × Metrics × TrainStepLog :=
  let from_seq := b.1
  let to_seq := b.2
  -- lines 38-39
  let model_input := teacherInput to_seq
  let targets := shiftedTargets to_seq
  -- lines 42-43: forward pass
  let outputs := F st.params from_seq model_input
  let loss := criterion (outputs.map List.transpose) targets
  -- line 46: loss.backward() accumulates the gradient into .grad
  let grad_computed := gradF st.params (from_seq, to_seq)
  let g1 := vecAdd st.grads grad_computed
  -- line 47: optimizer.step() consumes the current .grad
  let p1 := stepF st.params g1
  -- line 48: optimizer.zero_grad() clears .grad
  let g2 := List.replicate g1.length (0 : ℚ)
  -- lines 52-53: predictions from the first batch row
  let y_true := extract_y_true targets
  let y_pred := extract_y_pred outputs
  -- lines 56-61
  let metrics1 := calculate_metrics fns metrics loss y_true y_pred
  -- lines 63-67: periodic rolling-mean report
  let printed :=
    if verbose && i % train_eval_freq == 0 then
      some (metrics1.map (fun p => (p.1, npMean (negSlice p.2 train_eval_freq))))
    else none
  ({ params := p1, grads := g2, training := st.training },
   metrics1,
   { from_seq := from_seq, model_input := model_input, loss_target := targets,
     outputs := outputs, loss := loss,
     grad_before_backward := st.grads, grad_computed := grad_computed,
     grad_for_step := g1, grad_after_iter := g2,
     actions := [GradAction.backward, GradAction.step, GradAction.zeroGrad],
     y_true := y_true, y_pred := y_pred, metrics_after := metrics1,
     printed := printed })

def trainGo
    (F : List ℚ → Batch → Batch → List (List Vec))
    (gradF : List ℚ → Batch × Batch → List ℚ)
    (stepF : List ℚ → List ℚ → List ℚ)
    (criterion : List (List Vec) → Batch → ℚ)
    (fns : List MetricFn)
    (train_eval_freq : Nat) (verbose : Bool) :
    ModuleState → Metrics → Nat → List (Batch × Batch) →
    ModuleState × Metrics × List TrainStepLog
  | st, metrics, _, [] => (st, metrics, [])
  | st, metrics, i, b :: rest =>
    let r := train_body F gradF stepF criterion fns train_eval_freq verbose st metrics i b
    let rr := trainGo F gradF stepF criterion fns train_eval_freq verbose r.1 r.2.1 (i + 1) rest
    (rr.1, rr.2.1, r.2.2 :: rr.2.2)

structure EpochResult where
  state : ModuleState
  metrics : Metrics
  steps : List TrainStepLog
  deriving DecidableEq, Repr

/-- `train_epoch` (train.py lines 15-69): fresh accumulator (line 28),
`model.train()` (line 33), then the enumerated loop over the batches. -/
def train_epoch
    (F : List ℚ → Batch → Batch → List (List Vec))
    (gradF : List ℚ → Batch × Batch → List ℚ)
    (stepF : List ℚ → List ℚ → List ℚ)
    (criterion : List (List Vec) → Batch → ℚ)
    (fns : List MetricFn)
    (train_eval_freq : Nat) (verbose : Bool)
    (st0 : ModuleState) (batches : List (Batch × Batch)) : EpochResult :=
  let st1 : ModuleState :=
    { params := st0.params, grads := st0.grads, training := true }
  let r := trainGo F gradF stepF criterion fns train_eval_freq verbose st1 [] 0 batches
  { state := r.1, metrics := r.2.1, steps := r.2.2 }

/-- One iteration of `validate_epoch`'s loop (train.py lines 90-112): no
backward pass, no optimizer in scope, forward under `torch.no_grad()`. -/
structure ValStepLog where
  from_seq : Batch
  model_input : Batch
  loss_target : Batch
  outputs : List (List Vec)
  loss : ℚ
  y_true : TokSeq
  y_pred : TokSeq
  metrics_after : Metrics
  deriving DecidableEq, Repr

def validate_body
    (F : List ℚ → Batch → Batch → List (List Vec))
    (criterion : List (List Vec) → Batch → ℚ)
    (fns : List MetricFn)
    (st : ModuleState) (metrics : Metrics) (b : Batch × Batch) :
    ModuleState × Metrics × ValStepLog :=
  let from_seq := b.1
  let to_seq := b.2
  -- lines 93-94
  let model_input := teacherInput to_seq
  let targets := shiftedTargets to_seq
  -- lines 97-99: forward pass under no_grad
  let outputs := F st.params from_seq model_input
  let loss := criterion (outputs.map List.transpose) targets
  -- lines 103-104
  let y_true := extract_y_true targets
  let y_pred := extract_y_pred outputs
  -- lines 107-112
  let metrics1 := calculate_metrics fns metrics loss y_true y_pred
  (st, metrics1,
   { from_seq := from_seq, model_input := model_input, loss_target := targets,
     outputs := outputs, loss := loss,
     y_true := y_true, y_pred := y_pred, metrics_after := metrics1 })

def validateGo
    (F : List ℚ → Batch → Batch → List (List Vec))
    (criterion : List (List Vec) → Batch → ℚ)
    (fns : List MetricFn) :
    ModuleState → Metrics → List (Batch × Batch) →
    ModuleState × Metrics × List ValStepLog
  | st, metrics, [] => (st, metrics, [])
  | st, metrics, b :: rest =>
    let r := validate_body F criterion fns st metrics b
    let rr := validateGo F criterion fns r.1 r.2.1 rest
    (rr.1, rr.2.1, r.2.2 :: rr.2.2)

structure ValEpochResult where
  state : ModuleState
  metrics : Metrics
  steps : List ValStepLog
  deriving DecidableEq, Repr

/-- `validate_epoch` (train.py lines 72-114): fresh accumulator (line 83),
`model.eval()` (line 88), then the loop over the batches. -/
def validate_epoch
    (F : List ℚ → Batch → Batch → List (List Vec))
    (criterion : List (List Vec) → Batch → ℚ)
    (fns : List MetricFn)
    (st0 : ModuleState) (batches : List (Batch × Batch)) : ValEpochResult :=
  let st1 : ModuleState :=
    { params := st0.params, grads := st0.grads, training := false }
  let r := validateGo F criterion fns st1 [] batches
  { state := r.1, metrics := r.2.1, steps := r.2.2 }

/-! ## Helper lemmas -/

theorem getD_set_self {α : Type} (l : List α) (i : Nat) (v : α) :
    (l.set i v).getD i v = v := by
  induction l generalizing i with
  | nil => simp [List.getD]
  | cons a t ih =>
    cases i with
    | zero => simp [List.getD]
    | succ j => simpa [List.getD] using ih j

theorem infer_length_le (r : TokSeq) : infer_length r 3 ≤ r.length :=
  List.findIdx_le_length _

theorem infer_length_before (r : TokSeq) (j : Nat) (h : j < infer_length r 3) :
    r.get? j ≠ some 3 := by
  have hlen : j < r.length := Nat.lt_of_lt_of_le h (infer_length_le r)
  have hfalse := List.not_of_lt_findIdx (p := fun t => t == 3) h
  intro hc
  rw [List.get?_eq_getElem?, List.getElem?_eq_getElem hlen] at hc
  have : r[j] = 3 := by simpa using hc
  simp [this] at hfalse

theorem infer_length_mem (r : TokSeq) (h : 3 ∈ r) :
    r.get? (infer_length r 3) = some 3 := by
  induction r with
  | nil => cases h
  | cons a t ih =>
    by_cases ha : a = 3
    · subst ha
      simp [infer_length, List.findIdx_cons]
    · have ha2 : (a == 3) = false := by simp [ha]
      have hmem : 3 ∈ t := by
        rcases List.mem_cons.mp h with h3 | h3
        · exact absurd h3.symm ha
        · exact h3
      simp only [infer_length, List.findIdx_cons, ha2, cond_false]
      exact ih hmem

theorem infer_length_not_mem (r : TokSeq) (h : 3 ∉ r) :
    infer_length r 3 = r.length := by
  refine List.findIdx_eq_length_of_false (fun a ha => ?_)
  have : a ≠ 3 := fun hc => h (hc ▸ ha)
  simp [this]

theorem infer_length_take (r : TokSeq) :
    infer_length (r.take (infer_length r 3)) 3 = infer_length r 3 := by
  induction r with
  | nil => rfl
  | cons a t ih =>
    by_cases h : a = 3
    · simp [infer_length, List.findIdx_cons, h]
    · have ha : (a == 3) = false := by simp [h]
      simp only [infer_length, List.findIdx_cons, ha, cond_false] at ih ⊢
      simp [List.take_succ_cons, List.findIdx_cons, ha, ih]

theorem lookupSeq_take (e : Embedding) (r : TokSeq) (k : Nat) :
    e.lookupSeq (r.take k) = (e.lookupSeq r).take k := by
  simp [Embedding.lookupSeq, List.map_take]

theorem encoderRowHidden_take (e : Seq2SeqRNNEncoder) (r : TokSeq) :
    encoderRowHidden e (r.take (infer_length r 3)) = encoderRowHidden e r := by
  unfold encoderRowHidden
  rw [infer_length_take, lookupSeq_take, List.take_take, Nat.min_self]

theorem encoder_forward_take (e : Seq2SeqRNNEncoder) (x : Batch) :
    e.forward (x.map (fun r => r.take (infer_length r 3))) = e.forward x := by
  have hrows : (x.map (fun r => r.take (infer_length r 3))).map (encoderRowHidden e)
      = x.map (encoderRowHidden e) := by
    rw [List.map_map]
    exact List.map_congr_left (fun r _ => encoderRowHidden_take e r)
  simp only [Seq2SeqRNNEncoder.forward]
  rw [hrows]

/-! ## Claims -/

/-- C1: for every source sequence in a batch, the length the encoder infers
at `network.py` line 41 (`infer_length(x, pad_id=3)`) is the index of the
first occurrence of pad id 3 in that sequence — no earlier position holds a
3, and the position at the inferred length holds a 3 whenever one occurs —
or the full sequence length when no 3 occurs; and the encoder's recurrent
computation is restricted to that prefix: truncating every row to its
inferred length leaves the encoder output unchanged. -/
theorem infer_length_first_pad (x : Batch) :
    encoderLengths x = x.map (fun r => infer_length r 3)
    ∧ (∀ r ∈ x,
        infer_length r 3 ≤ r.length
        ∧ (∀ j, j < infer_length r 3 → r.get? j ≠ some 3)
        ∧ (3 ∈ r → r.get? (infer_length r 3) = some 3)
        ∧ (3 ∉ r → infer_length r 3 = r.length))
    ∧ (∀ e : Seq2SeqRNNEncoder,
        e.forward (x.map (fun r => r.take (infer_length r 3))) = e.forward x) := by
  refine ⟨rfl, fun r _ => ⟨infer_length_le r, infer_length_before r,
    infer_length_mem r, infer_length_not_mem r⟩, fun e => encoder_forward_take e x⟩

/-- C1 witness: the batch `[[4,3,5],[7]]` — the first row has its first pad
at index 1, the second has none. -/
theorem infer_length_first_pad_witness :
    ([4, 3, 5] : TokSeq) ∈ ([[4, 3, 5], [7]] : Batch)
    ∧ (infer_length [4, 3, 5] 3 ≤ ([4, 3, 5] : TokSeq).length
       ∧ (∀ j, j < infer_length [4, 3, 5] 3 → ([4, 3, 5] : TokSeq).get? j ≠ some 3)
       ∧ (3 ∈ ([4, 3, 5] : TokSeq) → ([4, 3, 5] : TokSeq).get? (infer_length [4, 3, 5] 3) = some 3)
       ∧ (3 ∉ ([4, 3, 5] : TokSeq) → infer_length [4, 3, 5] 3 = ([4, 3, 5] : TokSeq).length)) :=
  ⟨by decide, (infer_length_first_pad [[4, 3, 5], [7]]).2.1 [4, 3, 5] (by decide)⟩

/-- C3: the Seq2Seq model's forward output is the decoder applied to the
target-input batch with the context vector produced by the encoder applied
to the source batch, and a call leaves the module unchanged, so two calls
with equal inputs compose identically. -/
theorem seq2seq_pure_composition (m : Seq2SeqRNN) (from_seq to_seq : Batch) :
    m.forward from_seq to_seq
      = m.decoder.forward to_seq (m.encoder.forward from_seq)
    ∧ m.call from_seq to_seq = (m.forward from_seq to_seq, m)
    ∧ ((m.call from_seq to_seq).2.call from_seq to_seq).1 = (m.call from_seq to_seq).1
    ∧ ((m.call from_seq to_seq).2.call from_seq to_seq).2 = m :=
  ⟨rfl, rfl, rfl, rfl⟩

theorem embedding_init_lookup_pad (n d : Nat) (w : List Vec) :
    (Embedding.init n d (some 3) w).lookup 3 = zeroVec d := by
  unfold Embedding.init Embedding.lookup
  exact getD_set_self w 3 (zeroVec d)

theorem embedding_lookupSeq_pad (n d : Nat) (w : List Vec) (x : TokSeq) (i : Nat)
    (h : x.get? i = some 3) :
    ((Embedding.init n d (some 3) w).lookupSeq x).get? i = some (zeroVec d) := by
  unfold Embedding.lookupSeq
  rw [List.get?_eq_getElem?, List.getElem?_map]
  rw [List.get?_eq_getElem?] at h
  rw [h]
  simp [embedding_init_lookup_pad]

/-- C4: the encoder and the decoder embedding both designate pad id 3 as
their padding index; a position holding id 3 embeds to the zero vector, and
the pad row of either embedding receives zero gradient. -/
theorem pad_embedding_shared_zero :
    (∀ (n d hs nl : Nat) (dr : ℚ) (w : List Vec) (c : Nat → Vec → Vec → Vec),
        (Seq2SeqRNNEncoder.init n d hs nl dr w c).encoder_embedding.padding_idx = some 3)
    ∧ (∀ (n d hs nl : Nat) (dr : ℚ) (w : List Vec) (c : Nat → Vec → Vec → Vec)
         (lw : List Vec) (lb : Vec),
        (Seq2SeqRNNDecoder.init n d hs nl dr w c lw lb).decoder_embedding.padding_idx = some 3)
    ∧ (∀ (n d hs nl : Nat) (dr : ℚ) (w : List Vec) (c : Nat → Vec → Vec → Vec)
         (x : TokSeq) (i : Nat), x.get? i = some 3 →
        ((Seq2SeqRNNEncoder.init n d hs nl dr w c).encoder_embedding.lookupSeq x).get? i
          = some (zeroVec d))
    ∧ (∀ (n d hs nl : Nat) (dr : ℚ) (w : List Vec) (c : Nat → Vec → Vec → Vec)
         (lw : List Vec) (lb : Vec) (x : TokSeq) (i : Nat), x.get? i = some 3 →
        ((Seq2SeqRNNDecoder.init n d hs nl dr w c lw lb).decoder_embedding.lookupSeq x).get? i
          = some (zeroVec d))
    ∧ (∀ (e : Embedding) (x : TokSeq) (g : List Vec), e.padding_idx = some 3 →
        e.gradRow x g 3 = zeroVec e.embedding_dim) :=
  ⟨fun _ _ _ _ _ _ _ => rfl,
   fun _ _ _ _ _ _ _ _ _ => rfl,
   fun n d _ _ _ w _ x i h => embedding_lookupSeq_pad n d w x i h,
   fun n d _ _ _ w _ _ _ x i h => embedding_lookupSeq_pad n d w x i h,
   fun e x g h => by unfold Embedding.gradRow; rw [if_pos h]⟩

/-- C4 witness: a 4-token vocabulary, 2-dimensional embedding with a
nonzero initial weight; the input position holding id 3 embeds to the zero
vector. -/
theorem pad_embedding_shared_zero_witness :
    ([4, 3] : TokSeq).get? 1 = some 3
    ∧ ((Seq2SeqRNNEncoder.init 5 2 1 1 0 [[1, 1], [1, 1], [1, 1], [1, 1], [1, 1]]
          (fun _ _ h => h)).encoder_embedding.lookupSeq [4, 3]).get? 1
        = some (zeroVec 2) :=
  ⟨by decide,
   pad_embedding_shared_zero.2.2.1 5 2 1 1 0 [[1, 1], [1, 1], [1, 1], [1, 1], [1, 1]]
     (fun _ _ h => h) [4, 3] 1 (by decide)⟩

/-- C7 counterexample: a dataset whose source side has one pair and whose
target side has none is constructed successfully — `__init__` performs no
count comparison, so the mismatch does not surface at construction; it only
surfaces as the assertion inside `__len__`. -/
theorem wmt_mismatch_constructs :
    WMTDataset.init [[0]] []
      = { from_lang_list := [[0]], to_lang_list := [] }
    ∧ (WMTDataset.init [[0]] []).from_lang_list.length
        ≠ (WMTDataset.init [[0]] []).to_lang_list.length
    ∧ (WMTDataset.init [[0]] []).len = Except.error "AssertionError" :=
  ⟨rfl, by decide, rfl⟩

/-- C7 amended: mismatched pair counts are not checked at dataset
construction — `__init__` succeeds silently for any pair of loaded corpora —
and the mismatch is surfaced fatally, assertion-style, at the first length
query: `__len__` fails exactly when the counts differ and returns the shared
count otherwise. -/
theorem wmt_len_assert (fromData toData : List TokSeq) :
    (WMTDataset.init fromData toData).from_lang_list = fromData
    ∧ (WMTDataset.init fromData toData).to_lang_list = toData
    ∧ (fromData.length ≠ toData.length →
        (WMTDataset.init fromData toData).len = Except.error "AssertionError")
    ∧ (fromData.length = toData.length →
        (WMTDataset.init fromData toData).len = Except.ok fromData.length) := by
  refine ⟨rfl, rfl, fun h => ?_, fun h => ?_⟩
  · unfold WMTDataset.len WMTDataset.init
    rw [if_neg h]
  · unfold WMTDataset.len WMTDataset.init
    rw [if_pos h]

/-- C7 amended witness: the mismatched one-pair/zero-pair dataset. -/
theorem wmt_len_assert_witness :
    ([[0]] : List TokSeq).length ≠ ([] : List TokSeq).length
    ∧ (WMTDataset.init [[0]] []).len = Except.error "AssertionError" :=
  ⟨by decide, (wmt_len_assert [[0]] []).2.2.1 (by decide)⟩

/-- C8: seeding the decoder's recurrent network with a context vector whose
layer count differs from the decoder's `num_layers` is a fatal precondition
violation — the forward call fails with the hidden-state shape error and the
context is never silently coerced; in particular a model built with
different encoder and decoder layer counts fails on every forward call. -/
theorem decoder_layer_count_precondition :
    (∀ (d : Seq2SeqRNNDecoder) (x : Batch) (ctx : List (List Vec)),
        ctx.length ≠ d.decoder.num_layers →
        d.forward x ctx
          = Except.error "Expected number of hidden state layers to match num_layers")
    ∧ (∀ (ene ed eh el : Nat) (edr : ℚ) (dne dd dh dl : Nat) (ddr : ℚ)
         (ew : List Vec) (ec : Nat → Vec → Vec → Vec) (dw : List Vec)
         (dc : Nat → Vec → Vec → Vec) (lw : List Vec) (lb : Vec)
         (from_seq to_seq : Batch),
        el ≠ dl →
        (Seq2SeqRNN.init ene ed eh el edr dne dd dh dl ddr ew ec dw dc lw lb).forward
            from_seq to_seq
          = Except.error "Expected number of hidden state layers to match num_layers") := by
  have h1 : ∀ (d : Seq2SeqRNNDecoder) (x : Batch) (ctx : List (List Vec)),
      ctx.length ≠ d.decoder.num_layers →
      d.forward x ctx
        = Except.error "Expected number of hidden state layers to match num_layers" := by
    intro d x ctx h
    simp [Seq2SeqRNNDecoder.forward, GRU.call, h, Except.map]
  refine ⟨h1, ?_⟩
  intro ene ed eh el edr dne dd dh dl ddr ew ec dw dc lw lb from_seq to_seq h
  apply h1
  have hctx : ((Seq2SeqRNN.init ene ed eh el edr dne dd dh dl ddr ew ec dw dc
      lw lb).encoder.forward from_seq).length = el := by
    simp [Seq2SeqRNNEncoder.forward, Seq2SeqRNN.init, Seq2SeqRNNEncoder.init]
  rw [hctx]
  exact h

/-- C8 witness: a decoder with two recurrent layers rejects an empty
(zero-layer) context vector. -/
theorem decoder_layer_count_precondition_witness :
    (([] : List (List Vec)).length
        ≠ (Seq2SeqRNNDecoder.init 4 2 2 2 0 [] (fun _ _ h => h) [] []).decoder.num_layers)
    ∧ (Seq2SeqRNNDecoder.init 4 2 2 2 0 [] (fun _ _ h => h) [] []).forward [] []
        = Except.error "Expected number of hidden state layers to match num_layers" :=
  ⟨by decide,
   decoder_layer_count_precondition.1
     (Seq2SeqRNNDecoder.init 4 2 2 2 0 [] (fun _ _ h => h) [] []) [] [] (by decide)⟩

theorem trainGo_split
    (F : List ℚ → Batch → Batch → List (List Vec))
    (gradF : List ℚ → Batch × Batch → List ℚ)
    (stepF : List ℚ → List ℚ → List ℚ)
    (criterion : List (List Vec) → Batch → ℚ)
    (fns : List MetricFn) (freq : Nat) (verbose : Bool) :
    ∀ (batches : List (Batch × Batch)) (st : ModuleState) (m : Metrics) (i : Nat),
    (trainGo F gradF stepF criterion fns freq verbose st m i batches).2.2.map
        (fun s => (s.model_input, s.loss_target, s.y_true))
      = batches.map (fun b =>
          (teacherInput b.2, shiftedTargets b.2, extract_y_true (shiftedTargets b.2))) := by
  intro batches
  induction batches with
  | nil => intro st m i; rfl
  | cons b rest ih =>
    intro st m i
    simp only [trainGo, List.map_cons]
    exact congrArg₂ List.cons rfl (ih _ _ _)

theorem validateGo_split
    (F : List ℚ → Batch → Batch → List (List Vec))
    (criterion : List (List Vec) → Batch → ℚ)
    (fns : List MetricFn) :
    ∀ (batches : List (Batch × Batch)) (st : ModuleState) (m : Metrics),
    (validateGo F criterion fns st m batches).2.2.map
        (fun s => (s.model_input, s.loss_target, s.y_true))
      = batches.map (fun b =>
          (teacherInput b.2, shiftedTargets b.2, extract_y_true (shiftedTargets b.2))) := by
  intro batches
  induction batches with
  | nil => intro st m; rfl
  | cons b rest ih =>
    intro st m
    simp only [validateGo, List.map_cons]
    exact congrArg₂ List.cons rfl (ih _ _)

/-- C2: in both epoch drivers, every processed batch's teacher-forcing input
passed to the model is the target batch with the last position of each row
dropped (`to_seq[:, :-1]`), and the target used for the loss and for the
true labels is the target batch with the first position of each row dropped
(`to_seq[:, 1:]`). -/
theorem epoch_teacher_forcing_split
    (F : List ℚ → Batch → Batch → List (List Vec))
    (gradF : List ℚ → Batch × Batch → List ℚ)
    (stepF : List ℚ → List ℚ → List ℚ)
    (criterion : List (List Vec) → Batch → ℚ)
    (fns : List MetricFn) (freq : Nat) (verbose : Bool)
    (st0 : ModuleState) (batches : List (Batch × Batch)) :
    (train_epoch F gradF stepF criterion fns freq verbose st0 batches).steps.map
        (fun s => (s.model_input, s.loss_target, s.y_true))
      = batches.map (fun b =>
          (teacherInput b.2, shiftedTargets b.2, extract_y_true (shiftedTargets b.2)))
    ∧ (validate_epoch F criterion fns st0 batches).steps.map
        (fun s => (s.model_input, s.loss_target, s.y_true))
      = batches.map (fun b =>
          (teacherInput b.2, shiftedTargets b.2, extract_y_true (shiftedTargets b.2)))
    ∧ (∀ to_seq : Batch, teacherInput to_seq = to_seq.map (fun r => r.take (r.length - 1)))
    ∧ (∀ to_seq : Batch, shiftedTargets to_seq = to_seq.map (fun r => r.drop 1)) := by
  refine ⟨trainGo_split F gradF stepF criterion fns freq verbose batches _ _ _,
    validateGo_split F criterion fns batches _ _, fun to_seq => ?_, fun to_seq => ?_⟩
  · unfold teacherInput
    exact List.map_congr_left (fun r _ => List.dropLast_eq_take r)
  · unfold shiftedTargets
    exact List.map_congr_left (fun r _ => (List.drop_one r).symm)

theorem validateGo_state
    (F : List ℚ → Batch → Batch → List (List Vec))
    (criterion : List (List Vec) → Batch → ℚ)
    (fns : List MetricFn) :
    ∀ (batches : List (Batch × Batch)) (st : ModuleState) (m : Metrics),
    (validateGo F criterion fns st m batches).1 = st := by
  intro batches
  induction batches with
  | nil => intro st m; rfl
  | cons b rest ih => intro st m; exact ih _ _

/-- C6: the validation epoch driver leaves every model parameter (and the
accumulated gradients) unchanged, and runs the model in inference mode:
`model.eval()` clears the training flag before any batch is processed, so
dropout is disabled throughout.  No gradient or optimizer capability even
enters `validate_epoch`. -/
theorem validate_epoch_frame
    (F : List ℚ → Batch → Batch → List (List Vec))
    (criterion : List (List Vec) → Batch → ℚ)
    (fns : List MetricFn)
    (st0 : ModuleState) (batches : List (Batch × Batch)) :
    (validate_epoch F criterion fns st0 batches).state.params = st0.params
    ∧ (validate_epoch F criterion fns st0 batches).state.grads = st0.grads
    ∧ (validate_epoch F criterion fns st0 batches).state.training = false
    ∧ dropoutActive (validate_epoch F criterion fns st0 batches).state = false := by
  have h : (validate_epoch F criterion fns st0 batches).state
      = { params := st0.params, grads := st0.grads, training := false } := by
    unfold validate_epoch
    exact validateGo_state F criterion fns batches _ _
  rw [h]
  exact ⟨rfl, rfl, rfl, rfl⟩

theorem vecAdd_replicate_zero :
    ∀ (g : Vec) (n : Nat), g.length = n → vecAdd (List.replicate n 0) g = g := by
  intro g
  induction g with
  | nil => intro n _; simp [vecAdd]
  | cons a t ih =>
    intro n hn
    cases n with
    | zero => cases hn
    | succ k =>
      have hk : t.length = k := by simpa using hn
      simp only [vecAdd, List.replicate_succ, List.zipWith_cons_cons, zero_add]
      exact congrArg (List.cons a) (ih k hk)

theorem trainGo_grad_discipline
    (F : List ℚ → Batch → Batch → List (List Vec))
    (gradF : List ℚ → Batch × Batch → List ℚ)
    (stepF : List ℚ → List ℚ → List ℚ)
    (criterion : List (List Vec) → Batch → ℚ)
    (fns : List MetricFn) (freq : Nat) (verbose : Bool) (n : Nat)
    (hlen : ∀ p b, (gradF p b).length = n) :
    ∀ (batches : List (Batch × Batch)) (st : ModuleState) (m : Metrics) (i : Nat),
    st.grads = List.replicate n 0 →
    (trainGo F gradF stepF criterion fns freq verbose st m i batches).1.grads
        = List.replicate n 0
    ∧ (∀ s ∈ (trainGo F gradF stepF criterion fns freq verbose st m i batches).2.2,
        s.actions = [GradAction.backward, GradAction.step, GradAction.zeroGrad]
        ∧ s.grad_before_backward = List.replicate n 0
        ∧ s.grad_for_step = s.grad_computed
        ∧ s.grad_after_iter = List.replicate n 0) := by
  intro batches
  induction batches with
  | nil =>
    intro st m i hst
    exact ⟨hst, by intro s hs; cases hs⟩
  | cons b rest ih =>
    intro st m i hst
    have hsum : vecAdd st.grads (gradF st.params b) = gradF st.params b := by
      rw [hst]
      exact vecAdd_replicate_zero _ n (hlen _ _)
    have hzero : List.replicate (vecAdd st.grads (gradF st.params b)).length (0 : ℚ)
        = List.replicate n 0 := by
      rw [hsum, hlen]
    have hbody : (train_body F gradF stepF criterion fns freq verbose st m i b).1.grads
        = List.replicate n 0 := by
      simp only [train_body]
      exact hzero
    have hrec := ih (train_body F gradF stepF criterion fns freq verbose st m i b).1
      (train_body F gradF stepF criterion fns freq verbose st m i b).2.1 (i + 1) hbody
    refine ⟨?_, ?_⟩
    · simp only [trainGo]
      exact hrec.1
    · intro s hs
      simp only [trainGo, List.mem_cons] at hs
      rcases hs with hhead | htail
      · subst hhead
        refine ⟨rfl, ?_, ?_, ?_⟩
        · simp only [train_body]
          exact hst
        · simp only [train_body]
          exact hsum
        · simp only [train_body]
          exact hzero
      · exact hrec.2 s htail

/-- C5: within each training batch the three gradient actions occur in the
order backward, optimizer step, gradient clearing; gradients are zero when
every batch's backward pass begins (clearing completed in the previous
iteration), so the gradient the optimizer step consumes is exactly the
gradient computed by that batch's own backward pass — nothing accumulates
across batches — and the epoch ends with cleared gradients. -/
theorem train_grad_three_phase
    (F : List ℚ → Batch → Batch → List (List Vec))
    (gradF : List ℚ → Batch × Batch → List ℚ)
    (stepF : List ℚ → List ℚ → List ℚ)
    (criterion : List (List Vec) → Batch → ℚ)
    (fns : List MetricFn) (freq : Nat) (verbose : Bool)
    (st0 : ModuleState) (batches : List (Batch × Batch)) (n : Nat)
    (hg : st0.grads = List.replicate n 0)
    (hlen : ∀ p b, (gradF p b).length = n) :
    (∀ s ∈ (train_epoch F gradF stepF criterion fns freq verbose st0 batches).steps,
        s.actions = [GradAction.backward, GradAction.step, GradAction.zeroGrad]
        ∧ s.grad_before_backward = List.replicate n 0
        ∧ s.grad_for_step = s.grad_computed
        ∧ s.grad_after_iter = List.replicate n 0)
    ∧ (train_epoch F gradF stepF criterion fns freq verbose st0 batches).state.grads
        = List.replicate n 0 := by
  have h := trainGo_grad_discipline F gradF stepF criterion fns freq verbose n hlen
    batches { params := st0.params, grads := st0.grads, training := true } [] 0 hg
  exact ⟨h.2, h.1⟩

/-- Concrete instantiation used by the epoch-driver witnesses: a one-scalar
parameter vector, a model forward that embeds the teacher-forcing input ids
as singleton logits, a constant unit gradient, a subtracting optimizer step
and a loss counting the logit rows. -/
def testF : List ℚ → Batch → Batch → List (List Vec) :=
  fun _ _ to_in => to_in.map (fun r => r.map (fun t => [(t : ℚ)]))

def testGradF : List ℚ → Batch × Batch → List ℚ := fun _ _ => [1]

def testStepF : List ℚ → List ℚ → List ℚ :=
  fun p g => List.zipWith (fun a b => a - b) p g

def testCriterion : List (List Vec) → Batch → ℚ := fun o _ => o.length

def testFns : List MetricFn := [{ name := "loss", compute := fun l _ _ => l }]

def testState : ModuleState := { params := [5], grads := [0], training := false }

def testBatches : List (Batch × Batch) := [([[4, 3]], [[1, 7, 2]])]

/-- C5 witness: one training batch with the concrete test instantiation. -/
theorem train_grad_three_phase_witness :
    testState.grads = List.replicate 1 0
    ∧ ((∀ s ∈ (train_epoch testF testGradF testStepF testCriterion testFns
            500 true testState testBatches).steps,
        s.actions = [GradAction.backward, GradAction.step, GradAction.zeroGrad]
        ∧ s.grad_before_backward = List.replicate 1 0
        ∧ s.grad_for_step = s.grad_computed
        ∧ s.grad_after_iter = List.replicate 1 0)
    ∧ (train_epoch testF testGradF testStepF testCriterion testFns
          500 true testState testBatches).state.grads = List.replicate 1 0) :=
  ⟨rfl, train_grad_three_phase testF testGradF testStepF testCriterion testFns
    500 true testState testBatches 1 rfl (fun _ _ => rfl)⟩

theorem metricsGet_cons (p : String × List ℚ) (t : Metrics) (k : String) :
    metricsGet (p :: t) k = if p.1 == k then p.2 else metricsGet t k := by
  by_cases h : (p.1 == k) = true
  · simp [metricsGet, List.find?, h]
  · have h2 : (p.1 == k) = false := by simpa using h
    simp [metricsGet, List.find?, h2]

theorem metricsGet_map_upd (k : String) (v : ℚ) :
    ∀ t : Metrics, t.any (fun p => p.1 == k) = true →
    metricsGet (t.map (fun p => if p.1 == k then (p.1, p.2 ++ [v]) else p)) k
      = metricsGet t k ++ [v] := by
  intro t
  induction t with
  | nil => intro h; cases h
  | cons q r ih =>
    intro h
    by_cases hq : (q.1 == k) = true
    · simp only [List.map_cons, if_pos hq]
      rw [metricsGet_cons, metricsGet_cons]
      simp [hq]
    · have hq2 : (q.1 == k) = false := by simpa using hq
      have hr : r.any (fun p => p.1 == k) = true := by
        simpa [List.any_cons, hq2] using h
      simp only [List.map_cons, if_neg hq]
      rw [metricsGet_cons, metricsGet_cons, if_neg hq, if_neg hq]
      exact ih hr

theorem metricsGet_absent (k : String) :
    ∀ m : Metrics, m.any (fun p => p.1 == k) = false → metricsGet m k = [] := by
  intro m
  induction m with
  | nil => intro _; rfl
  | cons p t ih =>
    intro h
    have hp : (p.1 == k) = false := by
      by_contra hc
      simp only [Bool.not_eq_false] at hc
      simp [List.any_cons, hc] at h
    have ht : t.any (fun p => p.1 == k) = false := by
      simpa [List.any_cons, hp] using h
    rw [metricsGet_cons]
    simp [hp, ih ht]

theorem metricsGet_append_singleton (k : String) (v : ℚ) :
    ∀ m : Metrics, metricsGet (m ++ [(k, [v])]) k = metricsGet m k ++ [v]
      ∨ (m.any (fun p => p.1 == k) = true) := by
  intro m
  induction m with
  | nil =>
    left
    simp [metricsGet, List.find?]
  | cons p t ih =>
    by_cases hp : (p.1 == k) = true
    · right
      simp [List.any_cons, hp]
    · have hp2 : (p.1 == k) = false := by simpa using hp
      rcases ih with ihl | ihr
      · left
        rw [List.cons_append, metricsGet_cons, metricsGet_cons]
        simp [hp2, ihl]
      · right
        simp [List.any_cons, ihr]

theorem metricsGet_append_same (m : Metrics) (k : String) (v : ℚ) :
    metricsGet (metricsAppend m k v) k = metricsGet m k ++ [v] := by
  by_cases h : m.any (fun p => p.1 == k) = true
  · unfold metricsAppend
    rw [if_pos h]
    exact metricsGet_map_upd k v m h
  · have h2 : m.any (fun p => p.1 == k) = false := by
      cases hb : m.any (fun p => p.1 == k) with
      | false => rfl
      | true => exact absurd hb h
    unfold metricsAppend
    rw [if_neg h]
    rcases metricsGet_append_singleton k v m with hl | hr
    · exact hl
    · rw [hr] at h2; cases h2

theorem metricsGet_map_upd_other (k k2 : String) (v : ℚ) (hne : (k == k2) = false) :
    ∀ t : Metrics,
    metricsGet (t.map (fun p => if p.1 == k then (p.1, p.2 ++ [v]) else p)) k2
      = metricsGet t k2 := by
  intro t
  induction t with
  | nil => rfl
  | cons q r ih =>
    by_cases hq : (q.1 == k) = true
    · have hqk : q.1 = k := by simpa using hq
      have hq2 : (q.1 == k2) = false := by
        rw [hqk]
        exact hne
      simp only [List.map_cons, if_pos hq]
      rw [metricsGet_cons, metricsGet_cons]
      simp only [hq2]
      simpa [hq2] using ih
    · simp only [List.map_cons, if_neg hq]
      rw [metricsGet_cons, metricsGet_cons]
      by_cases hq2 : (q.1 == k2) = true
      · simp [hq2]
      · have hq3 : (q.1 == k2) = false := by simpa using hq2
        simp only [hq3]
        simpa [hq3] using ih

theorem metricsGet_append_singleton_other (k k2 : String) (v : ℚ)
    (hne : (k == k2) = false) :
    ∀ m : Metrics, metricsGet (m ++ [(k, [v])]) k2 = metricsGet m k2 := by
  intro m
  induction m with
  | nil =>
    simp [metricsGet, List.find?, hne]
  | cons p t ih =>
    rw [List.cons_append, metricsGet_cons, metricsGet_cons]
    by_cases hp : (p.1 == k2) = true
    · simp [hp]
    · have hp2 : (p.1 == k2) = false := by simpa using hp
      simp [hp2, ih]

theorem metricsGet_append_other (m : Metrics) (k k2 : String) (v : ℚ)
    (hne : (k == k2) = false) :
    metricsGet (metricsAppend m k v) k2 = metricsGet m k2 := by
  unfold metricsAppend
  by_cases h : m.any (fun p => p.1 == k) = true
  · rw [if_pos h]
    exact metricsGet_map_upd_other k k2 v hne m
  · rw [if_neg h]
    exact metricsGet_append_singleton_other k k2 v hne m

theorem calculate_metrics_cons (f : MetricFn) (t : List MetricFn) (m : Metrics)
    (L : ℚ) (yt yp : TokSeq) :
    calculate_metrics (f :: t) m L yt yp
      = calculate_metrics t (metricsAppend m f.name (f.compute L yt yp)) L yt yp := rfl

theorem beq_false_of_ne_name (a b : String) (h : a ≠ b) : (a == b) = false := by
  cases hb : a == b with
  | false => rfl
  | true => exact absurd (by simpa using hb) h

theorem calculate_metrics_absent (L : ℚ) (yt yp : TokSeq) (k : String) :
    ∀ (fns : List MetricFn) (m : Metrics), (∀ f ∈ fns, f.name ≠ k) →
    metricsGet (calculate_metrics fns m L yt yp) k = metricsGet m k := by
  intro fns
  induction fns with
  | nil => intro m _; rfl
  | cons f t ih =>
    intro m h
    rw [calculate_metrics_cons, ih _ (fun g hg => h g (List.mem_cons_of_mem f hg)),
      metricsGet_append_other _ _ _ _
        (beq_false_of_ne_name _ _ (h f (List.mem_cons_self f t)))]

theorem calculate_metrics_mem (L : ℚ) (yt yp : TokSeq) :
    ∀ (fns : List MetricFn), (fns.map MetricFn.name).Nodup →
    ∀ f ∈ fns, ∀ m : Metrics,
    metricsGet (calculate_metrics fns m L yt yp) f.name
      = metricsGet m f.name ++ [f.compute L yt yp] := by
  intro fns
  induction fns with
  | nil => intro _ f hf; cases hf
  | cons f0 t ih =>
    intro hnd f hf m
    rw [List.map_cons, List.nodup_cons] at hnd
    have hhead : f0.name ∉ t.map MetricFn.name := hnd.1
    have htail : (t.map MetricFn.name).Nodup := hnd.2
    rcases List.mem_cons.mp hf with hf0 | hft
    · subst hf0
      rw [calculate_metrics_cons,
        calculate_metrics_absent L yt yp f.name t _
          (fun g hg hc => hhead (hc ▸ List.mem_map_of_mem MetricFn.name hg)),
        metricsGet_append_same]
    · have hne : f0.name ≠ f.name := by
        intro hc
        exact hhead (hc ▸ List.mem_map_of_mem MetricFn.name hft)
      rw [calculate_metrics_cons, ih htail f hft _,
        metricsGet_append_other _ _ _ _ (beq_false_of_ne_name _ _ hne)]

/-- `b` continues `a`: the first `a.length` entries of `b` are exactly `a`
(so `a`'s entries are never mutated once written). -/
def listExtends (a b : List ℚ) : Prop := b.take a.length = a

theorem listExtends_refl (a : List ℚ) : listExtends a a := by
  simp [listExtends]

theorem listExtends_trans (a b c : List ℚ) (h1 : listExtends a b)
    (h2 : listExtends b c) : listExtends a c := by
  unfold listExtends at h1 h2 ⊢
  have hl : (b.take a.length).length = a.length := by rw [h1]
  rw [List.length_take] at hl
  have hab : a.length ≤ b.length := by omega
  have hcut : (c.take b.length).take a.length = c.take a.length := by
    rw [List.take_take, Nat.min_eq_left hab]
  rw [← hcut, h2]
  exact h1

theorem listExtends_append (a t : List ℚ) : listExtends a (a ++ t) := by
  unfold listExtends
  exact List.take_left a t

theorem metricsAppend_extends (m : Metrics) (k : String) (v : ℚ) (k2 : String) :
    listExtends (metricsGet m k2) (metricsGet (metricsAppend m k v) k2) := by
  by_cases h : k = k2
  · subst h
    rw [metricsGet_append_same]
    exact listExtends_append _ _
  · rw [metricsGet_append_other m k k2 v (beq_false_of_ne_name _ _ h)]
    exact listExtends_refl _

theorem calculate_metrics_extends (L : ℚ) (yt yp : TokSeq) (k2 : String) :
    ∀ (fns : List MetricFn) (m : Metrics),
    listExtends (metricsGet m k2) (metricsGet (calculate_metrics fns m L yt yp) k2) := by
  intro fns
  induction fns with
  | nil => intro m; exact listExtends_refl _
  | cons f t ih =>
    intro m
    rw [calculate_metrics_cons]
    exact listExtends_trans _ _ _ (metricsAppend_extends m f.name _ k2)
      (ih (metricsAppend m f.name (f.compute L yt yp)))

theorem npMean_lastK (l : List ℚ) (k : Nat) (h1 : 1 ≤ k) (h2 : k ≤ l.length) :
    negSlice l k = lastK k l ∧ (lastK k l).length = k
    ∧ npMean (negSlice l k) = (lastK k l).sum / (k : ℚ) := by
  have hk0 : k ≠ 0 := by omega
  have hns : negSlice l k = lastK k l := by
    unfold negSlice lastK
    rw [if_neg hk0]
  have hlen : (lastK k l).length = k := by
    unfold lastK
    rw [List.length_drop]
    omega
  refine ⟨hns, hlen, ?_⟩
  rw [hns]
  unfold npMean
  rw [hlen]

theorem train_body_metrics1
    (F : List ℚ → Batch → Batch → List (List Vec))
    (gradF : List ℚ → Batch × Batch → List ℚ)
    (stepF : List ℚ → List ℚ → List ℚ)
    (criterion : List (List Vec) → Batch → ℚ)
    (fns : List MetricFn) (freq : Nat) (verbose : Bool)
    (st : ModuleState) (m : Metrics) (i : Nat) (b : Batch × Batch) :
    (train_body F gradF stepF criterion fns freq verbose st m i b).2.1
      = calculate_metrics fns m
          (criterion ((F st.params b.1 (teacherInput b.2)).map List.transpose)
            (shiftedTargets b.2))
          (extract_y_true (shiftedTargets b.2))
          (extract_y_pred (F st.params b.1 (teacherInput b.2))) := rfl

theorem train_body_metrics_after
    (F : List ℚ → Batch → Batch → List (List Vec))
    (gradF : List ℚ → Batch × Batch → List ℚ)
    (stepF : List ℚ → List ℚ → List ℚ)
    (criterion : List (List Vec) → Batch → ℚ)
    (fns : List MetricFn) (freq : Nat) (verbose : Bool)
    (st : ModuleState) (m : Metrics) (i : Nat) (b : Batch × Batch) :
    (train_body F gradF stepF criterion fns freq verbose st m i b).2.2.metrics_after
      = (train_body F gradF stepF criterion fns freq verbose st m i b).2.1 := rfl

theorem trainGo_metric_count
    (F : List ℚ → Batch → Batch → List (List Vec))
    (gradF : List ℚ → Batch × Batch → List ℚ)
    (stepF : List ℚ → List ℚ → List ℚ)
    (criterion : List (List Vec) → Batch → ℚ)
    (fns : List MetricFn) (freq : Nat) (verbose : Bool)
    (hnd : (fns.map MetricFn.name).Nodup) :
    ∀ (batches : List (Batch × Batch)) (st : ModuleState) (m : Metrics) (i : Nat) (c : Nat),
    (∀ f ∈ fns, (metricsGet m f.name).length = c) →
    ∀ f ∈ fns,
      (metricsGet (trainGo F gradF stepF criterion fns freq verbose st m i batches).2.1
          f.name).length
        = c + batches.length := by
  intro batches
  induction batches with
  | nil =>
    intro st m i c hm f hf
    simpa using hm f hf
  | cons b rest ih =>
    intro st m i c hm f hf
    have hstep : ∀ g ∈ fns,
        (metricsGet (train_body F gradF stepF criterion fns freq verbose st m i b).2.1
            g.name).length = c + 1 := by
      intro g hg
      rw [train_body_metrics1, calculate_metrics_mem _ _ _ fns hnd g hg m]
      simp [hm g hg]
    have hrec := ih (train_body F gradF stepF criterion fns freq verbose st m i b).1
      (train_body F gradF stepF criterion fns freq verbose st m i b).2.1
      (i + 1) (c + 1) hstep f hf
    simp only [trainGo, List.length_cons]
    omega

theorem trainGo_metrics_chain
    (F : List ℚ → Batch → Batch → List (List Vec))
    (gradF : List ℚ → Batch × Batch → List ℚ)
    (stepF : List ℚ → List ℚ → List ℚ)
    (criterion : List (List Vec) → Batch → ℚ)
    (fns : List MetricFn) (freq : Nat) (verbose : Bool) :
    ∀ (batches : List (Batch × Batch)) (st : ModuleState) (m : Metrics) (i : Nat),
    (∀ s ∈ (trainGo F gradF stepF criterion fns freq verbose st m i batches).2.2,
        ∀ k, listExtends (metricsGet m k) (metricsGet s.metrics_after k))
    ∧ List.Chain'
        (fun a b => ∀ k,
          listExtends (metricsGet a.metrics_after k) (metricsGet b.metrics_after k))
        (trainGo F gradF stepF criterion fns freq verbose st m i batches).2.2 := by
  intro batches
  induction batches with
  | nil =>
    intro st m i
    exact ⟨fun s hs => absurd hs (by simp [trainGo]), by simp [trainGo]⟩
  | cons b rest ih =>
    intro st m i
    obtain ⟨ihext, ihchain⟩ :=
      ih (train_body F gradF stepF criterion fns freq verbose st m i b).1
        (train_body F gradF stepF criterion fns freq verbose st m i b).2.1 (i + 1)
    have hm1 : ∀ k, listExtends (metricsGet m k)
        (metricsGet (train_body F gradF stepF criterion fns freq verbose st m i b).2.1 k) := by
      intro k
      rw [train_body_metrics1]
      exact calculate_metrics_extends _ _ _ k fns m
    constructor
    · intro s hs k
      simp only [trainGo, List.mem_cons] at hs
      rcases hs with hhead | htail
      · subst hhead
        rw [train_body_metrics_after]
        exact hm1 k
      · exact listExtends_trans _ _ _ (hm1 k) (ihext s htail k)
    · simp only [trainGo]
      refine List.chain'_cons'.mpr ⟨?_, ihchain⟩
      intro y hy k
      rw [train_body_metrics_after]
      exact ihext y (List.mem_of_mem_head? hy) k

theorem train_body_printed
    (F : List ℚ → Batch → Batch → List (List Vec))
    (gradF : List ℚ → Batch × Batch → List ℚ)
    (stepF : List ℚ → List ℚ → List ℚ)
    (criterion : List (List Vec) → Batch → ℚ)
    (fns : List MetricFn) (freq : Nat) (verbose : Bool)
    (st : ModuleState) (m : Metrics) (i : Nat) (b : Batch × Batch) :
    (train_body F gradF stepF criterion fns freq verbose st m i b).2.2.printed
      = if (verbose && i % freq == 0) = true then
          some ((train_body F gradF stepF criterion fns freq verbose st m i b).2.2.metrics_after.map
            (fun p => (p.1, npMean (negSlice p.2 freq))))
        else none := rfl

theorem trainGo_printed
    (F : List ℚ → Batch → Batch → List (List Vec))
    (gradF : List ℚ → Batch × Batch → List ℚ)
    (stepF : List ℚ → List ℚ → List ℚ)
    (criterion : List (List Vec) → Batch → ℚ)
    (fns : List MetricFn) (freq : Nat) (verbose : Bool) :
    ∀ (batches : List (Batch × Batch)) (st : ModuleState) (m : Metrics) (i : Nat),
    ∀ s ∈ (trainGo F gradF stepF criterion fns freq verbose st m i batches).2.2,
      s.printed = none
      ∨ s.printed
          = some (s.metrics_after.map (fun p => (p.1, npMean (negSlice p.2 freq)))) := by
  intro batches
  induction batches with
  | nil =>
    intro st m i s hs
    exact absurd hs (by simp [trainGo])
  | cons b rest ih =>
    intro st m i s hs
    simp only [trainGo, List.mem_cons] at hs
    rcases hs with hhead | htail
    · subst hhead
      rw [train_body_printed]
      by_cases hc : (verbose && i % freq == 0) = true
      · right
        rw [if_pos hc]
      · left
        rw [if_neg hc]
    · exact ih (train_body F gradF stepF criterion fns freq verbose st m i b).1
        (train_body F gradF stepF criterion fns freq verbose st m i b).2.1 (i + 1) s htail

theorem train_body_verbose_state
    (F : List ℚ → Batch → Batch → List (List Vec))
    (gradF : List ℚ → Batch × Batch → List ℚ)
    (stepF : List ℚ → List ℚ → List ℚ)
    (criterion : List (List Vec) → Batch → ℚ)
    (fns : List MetricFn) (freq : Nat)
    (st : ModuleState) (m : Metrics) (i : Nat) (b : Batch × Batch) :
    (train_body F gradF stepF criterion fns freq true st m i b).1
        = (train_body F gradF stepF criterion fns freq false st m i b).1
    ∧ (train_body F gradF stepF criterion fns freq true st m i b).2.1
        = (train_body F gradF stepF criterion fns freq false st m i b).2.1 :=
  ⟨rfl, rfl⟩

theorem trainGo_verbose
    (F : List ℚ → Batch → Batch → List (List Vec))
    (gradF : List ℚ → Batch × Batch → List ℚ)
    (stepF : List ℚ → List ℚ → List ℚ)
    (criterion : List (List Vec) → Batch → ℚ)
    (fns : List MetricFn) (freq : Nat) :
    ∀ (batches : List (Batch × Batch)) (st : ModuleState) (m : Metrics) (i : Nat),
    (trainGo F gradF stepF criterion fns freq true st m i batches).1
        = (trainGo F gradF stepF criterion fns freq false st m i batches).1
    ∧ (trainGo F gradF stepF criterion fns freq true st m i batches).2.1
        = (trainGo F gradF stepF criterion fns freq false st m i batches).2.1 := by
  intro batches
  induction batches with
  | nil => intro st m i; exact ⟨rfl, rfl⟩
  | cons b rest ih =>
    intro st m i
    simp only [trainGo]
    rw [(train_body_verbose_state F gradF stepF criterion fns freq st m i b).1,
      (train_body_verbose_state F gradF stepF criterion fns freq st m i b).2]
    exact ih _ _ _

theorem train_epoch_parts
    (F : List ℚ → Batch → Batch → List (List Vec))
    (gradF : List ℚ → Batch × Batch → List ℚ)
    (stepF : List ℚ → List ℚ → List ℚ)
    (criterion : List (List Vec) → Batch → ℚ)
    (fns : List MetricFn) (freq : Nat) (verbose : Bool)
    (st0 : ModuleState) (batches : List (Batch × Batch)) :
    (train_epoch F gradF stepF criterion fns freq verbose st0 batches).state
        = (trainGo F gradF stepF criterion fns freq verbose
            { params := st0.params, grads := st0.grads, training := true } [] 0 batches).1
    ∧ (train_epoch F gradF stepF criterion fns freq verbose st0 batches).metrics
        = (trainGo F gradF stepF criterion fns freq verbose
            { params := st0.params, grads := st0.grads, training := true } [] 0 batches).2.1
    ∧ (train_epoch F gradF stepF criterion fns freq verbose st0 batches).steps
        = (trainGo F gradF stepF criterion fns freq verbose
            { params := st0.params, grads := st0.grads, training := true } [] 0 batches).2.2 :=
  ⟨rfl, rfl, rfl⟩

/-- C9: over one training epoch every tracked metric gains exactly one
appended value per processed batch; along the steps the accumulator only
ever grows — earlier entries are never mutated; every periodic report prints
`np.mean` of the Python slice `values[-freq:]`, which for `freq ≥ 1` and at
least `freq` recorded values is the arithmetic mean of the last `freq`
appended raw values; and reporting has no effect on the training state: the
final module state and accumulator are identical with and without
reporting. -/
theorem train_metrics_accumulator
    (F : List ℚ → Batch → Batch → List (List Vec))
    (gradF : List ℚ → Batch × Batch → List ℚ)
    (stepF : List ℚ → List ℚ → List ℚ)
    (criterion : List (List Vec) → Batch → ℚ)
    (fns : List MetricFn) (freq : Nat) (verbose : Bool)
    (st0 : ModuleState) (batches : List (Batch × Batch))
    (hnd : (fns.map MetricFn.name).Nodup) (hfreq : 1 ≤ freq) :
    (∀ f ∈ fns,
        (metricsGet (train_epoch F gradF stepF criterion fns freq verbose st0
            batches).metrics f.name).length = batches.length)
    ∧ List.Chain' (fun a b => ∀ k,
        listExtends (metricsGet a.metrics_after k) (metricsGet b.metrics_after k))
        (train_epoch F gradF stepF criterion fns freq verbose st0 batches).steps
    ∧ (∀ s ∈ (train_epoch F gradF stepF criterion fns freq verbose st0 batches).steps,
        s.printed = none
        ∨ s.printed
            = some (s.metrics_after.map (fun p => (p.1, npMean (negSlice p.2 freq)))))
    ∧ (∀ l : List ℚ, freq ≤ l.length →
        negSlice l freq = lastK freq l ∧ (lastK freq l).length = freq
        ∧ npMean (negSlice l freq) = (lastK freq l).sum / (freq : ℚ))
    ∧ (train_epoch F gradF stepF criterion fns freq true st0 batches).state
        = (train_epoch F gradF stepF criterion fns freq false st0 batches).state
    ∧ (train_epoch F gradF stepF criterion fns freq true st0 batches).metrics
        = (train_epoch F gradF stepF criterion fns freq false st0 batches).metrics := by
  obtain ⟨hst, hme, hsp⟩ :=
    train_epoch_parts F gradF stepF criterion fns freq verbose st0 batches
  refine ⟨?_, ?_, ?_, ?_, ?_, ?_⟩
  · intro f hf
    rw [hme]
    have := trainGo_metric_count F gradF stepF criterion fns freq verbose hnd batches
      { params := st0.params, grads := st0.grads, training := true } [] 0 0
      (fun g _ => rfl) f hf
    omega
  · rw [hsp]
    exact (trainGo_metrics_chain F gradF stepF criterion fns freq verbose batches
      { params := st0.params, grads := st0.grads, training := true } [] 0).2
  · rw [hsp]
    exact trainGo_printed F gradF stepF criterion fns freq verbose batches
      { params := st0.params, grads := st0.grads, training := true } [] 0
  · exact fun l hl => npMean_lastK l freq hfreq hl
  · rw [(train_epoch_parts F gradF stepF criterion fns freq true st0 batches).1,
      (train_epoch_parts F gradF stepF criterion fns freq false st0 batches).1]
    exact (trainGo_verbose F gradF stepF criterion fns freq batches
      { params := st0.params, grads := st0.grads, training := true } [] 0).1
  · rw [(train_epoch_parts F gradF stepF criterion fns freq true st0 batches).2.1,
      (train_epoch_parts F gradF stepF criterion fns freq false st0 batches).2.1]
    exact (trainGo_verbose F gradF stepF criterion fns freq batches
      { params := st0.params, grads := st0.grads, training := true } [] 0).2

/-- C9 witness: the concrete test instantiation with report frequency 1. -/
theorem train_metrics_accumulator_witness :
    (testFns.map MetricFn.name).Nodup
    ∧ 1 ≤ 1
    ∧ ((∀ f ∈ testFns,
        (metricsGet (train_epoch testF testGradF testStepF testCriterion testFns 1 true
            testState testBatches).metrics f.name).length = testBatches.length)
    ∧ List.Chain' (fun a b => ∀ k,
        listExtends (metricsGet a.metrics_after k) (metricsGet b.metrics_after k))
        (train_epoch testF testGradF testStepF testCriterion testFns 1 true
          testState testBatches).steps
    ∧ (∀ s ∈ (train_epoch testF testGradF testStepF testCriterion testFns 1 true
          testState testBatches).steps,
        s.printed = none
        ∨ s.printed
            = some (s.metrics_after.map (fun p => (p.1, npMean (negSlice p.2 1)))))
    ∧ (∀ l : List ℚ, 1 ≤ l.length →
        negSlice l 1 = lastK 1 l ∧ (lastK 1 l).length = 1
        ∧ npMean (negSlice l 1) = (lastK 1 l).sum / ((1 : Nat) : ℚ))
    ∧ (train_epoch testF testGradF testStepF testCriterion testFns 1 true
          testState testBatches).state
        = (train_epoch testF testGradF testStepF testCriterion testFns 1 false
            testState testBatches).state
    ∧ (train_epoch testF testGradF testStepF testCriterion testFns 1 true
          testState testBatches).metrics
        = (train_epoch testF testGradF testStepF testCriterion testFns 1 false
            testState testBatches).metrics) :=
  ⟨by decide, by decide,
   train_metrics_accumulator testF testGradF testStepF testCriterion testFns 1 true
     testState testBatches (by decide) (by decide)⟩

/-- A criterion that sums all target token ids — a legitimate injected loss
function that depends on every batch row. -/
def critSum : List (List Vec) → Batch → ℚ :=
  fun _ t => (((t.map (fun r => r.sum)).sum : Nat) : ℚ)

/-- C10 counterexample: two validation runs whose single batch agrees on the
source side and on the first target row, differing only in the second target
row, append different metric values (the loss reaches the accumulator and
depends on every row), so rows other than the first do contribute to the
appended metrics. -/
theorem metrics_first_row_cex :
    ([[1, 7], [1, 7]] : Batch).getD 0 [] = ([[1, 7], [1, 8]] : Batch).getD 0 []
    ∧ ([[1, 7], [1, 7]] : Batch).length = 2
    ∧ (validate_epoch testF critSum testFns testState [([[4]], [[1, 7], [1, 7]])]).metrics
        ≠ (validate_epoch testF critSum testFns testState [([[4]], [[1, 7], [1, 8]])]).metrics :=
  ⟨rfl, rfl, by decide⟩

theorem trainGo_labels
    (F : List ℚ → Batch → Batch → List (List Vec))
    (gradF : List ℚ → Batch × Batch → List ℚ)
    (stepF : List ℚ → List ℚ → List ℚ)
    (criterion : List (List Vec) → Batch → ℚ)
    (fns : List MetricFn) (freq : Nat) (verbose : Bool) :
    ∀ (batches : List (Batch × Batch)) (st : ModuleState) (m : Metrics) (i : Nat),
    ∀ s ∈ (trainGo F gradF stepF criterion fns freq verbose st m i batches).2.2,
      s.y_true = extract_y_true s.loss_target ∧ s.y_pred = extract_y_pred s.outputs := by
  intro batches
  induction batches with
  | nil =>
    intro st m i s hs
    exact absurd hs (by simp [trainGo])
  | cons b rest ih =>
    intro st m i s hs
    simp only [trainGo, List.mem_cons] at hs
    rcases hs with hhead | htail
    · subst hhead
      exact ⟨rfl, rfl⟩
    · exact ih (train_body F gradF stepF criterion fns freq verbose st m i b).1
        (train_body F gradF stepF criterion fns freq verbose st m i b).2.1 (i + 1) s htail

theorem validateGo_labels
    (F : List ℚ → Batch → Batch → List (List Vec))
    (criterion : List (List Vec) → Batch → ℚ)
    (fns : List MetricFn) :
    ∀ (batches : List (Batch × Batch)) (st : ModuleState) (m : Metrics),
    ∀ s ∈ (validateGo F criterion fns st m batches).2.2,
      s.y_true = extract_y_true s.loss_target ∧ s.y_pred = extract_y_pred s.outputs := by
  intro batches
  induction batches with
  | nil =>
    intro st m s hs
    exact absurd hs (by simp [validateGo])
  | cons b rest ih =>
    intro st m s hs
    simp only [validateGo, List.mem_cons] at hs
    rcases hs with hhead | htail
    · subst hhead
      exact ⟨rfl, rfl⟩
    · exact ih (validate_body F criterion fns st m b).1
        (validate_body F criterion fns st m b).2.1 s htail

/-- C10 amended: in both epoch drivers the true-label and predicted-label
sequences passed to the metrics collaborator are extracted exclusively from
the first row (index 0) of the loss target and of the model outputs — rows
other than the first contribute nothing to those label sequences (though
they still reach the appended metrics through the loss value). -/
theorem label_extraction_first_row
    (targets targets2 : Batch) (outputs outputs2 : List (List Vec))
    (ht : targets.getD 0 [] = targets2.getD 0 [])
    (ho : outputs.getD 0 [] = outputs2.getD 0 []) :
    extract_y_true targets = extract_y_true targets2
    ∧ extract_y_pred outputs = extract_y_pred outputs2
    ∧ (∀ (F : List ℚ → Batch → Batch → List (List Vec))
         (gradF : List ℚ → Batch × Batch → List ℚ)
         (stepF : List ℚ → List ℚ → List ℚ)
         (criterion : List (List Vec) → Batch → ℚ)
         (fns : List MetricFn) (freq : Nat) (verbose : Bool)
         (st0 : ModuleState) (batches : List (Batch × Batch)),
        ∀ s ∈ (train_epoch F gradF stepF criterion fns freq verbose st0 batches).steps,
          s.y_true = extract_y_true s.loss_target
          ∧ s.y_pred = extract_y_pred s.outputs)
    ∧ (∀ (F : List ℚ → Batch → Batch → List (List Vec))
         (criterion : List (List Vec) → Batch → ℚ)
         (fns : List MetricFn)
         (st0 : ModuleState) (batches : List (Batch × Batch)),
        ∀ s ∈ (validate_epoch F criterion fns st0 batches).steps,
          s.y_true = extract_y_true s.loss_target
          ∧ s.y_pred = extract_y_pred s.outputs) := by
  refine ⟨ht, ?_, ?_, ?_⟩
  · unfold extract_y_pred
    rw [ho]
  · intro F gradF stepF criterion fns freq verbose st0 batches s hs
    rw [(train_epoch_parts F gradF stepF criterion fns freq verbose st0 batches).2.2] at hs
    exact trainGo_labels F gradF stepF criterion fns freq verbose batches _ _ _ s hs
  · intro F criterion fns st0 batches s hs
    exact validateGo_labels F criterion fns batches _ _ s hs

/-- C10 amended witness: targets and outputs pairs agreeing on their first
rows. -/
theorem label_extraction_first_row_witness :
    ([[7], [7]] : Batch).getD 0 [] = ([[7], [8]] : Batch).getD 0 []
    ∧ ([[[1]]] : List (List Vec)).getD 0 [] = ([[[1]], [[2]]] : List (List Vec)).getD 0 []
    ∧ extract_y_true [[7], [7]] = extract_y_true [[7], [8]]
    ∧ extract_y_pred [[[1]]] = extract_y_pred [[[1]], [[2]]] :=
  ⟨by decide, by decide,
   (label_extraction_first_row [[7], [7]] [[7], [8]] [[[1]]] [[[1]], [[2]]]
     (by decide) (by decide)).1,
   (label_extraction_first_row [[7], [7]] [[7], [8]] [[[1]]] [[[1]], [[2]]]
     (by decide) (by decide)).2.1⟩
